import Mathlib

/-!
Shallow embedding of the `time` crate core under verification: the signed
`Duration` value type (src/duration.rs) and the fixed-width UTC-offset
codec (src/format/offset.rs).

Machine integers are embedded as `Int` together with explicit range
predicates; Rust's `/` and `%` on signed integers truncate toward zero and
are embedded as `Int.tdiv` / `Int.tmod`.  Fallible operations (checked
arithmetic, `TryFrom`) return `Option` / `Except`; a `panic!`/`expect`
abort is modelled as `none`.
-/

namespace TimeCrate

/-! ### Machine integer ranges -/

def i64_min : Int := -9223372036854775808
def i64_max : Int := 9223372036854775807
def i32_min : Int := -2147483648
def i32_max : Int := 2147483647
def u64_max : Int := 18446744073709551615
def i128_min : Int := -170141183460469231731687303715884105728
def i128_max : Int := 170141183460469231731687303715884105727

/-- Rust `i64::checked_add` (the only checked operation `Duration::new` uses):
`some` of the exact sum when it fits in `i64`, `none` on overflow. -/
def checked_add_i64 (a b : Int) : Option Int :=
  if i64_min ≤ a + b ∧ a + b ≤ i64_max then some (a + b) else none

/-- Rust `i128::saturating_add`. -/
def sat_add_i128 (a b : Int) : Int :=
  if a + b > i128_max then i128_max
  else if a + b < i128_min then i128_min
  else a + b

/-- Rust `i128::saturating_sub`. -/
def sat_sub_i128 (a b : Int) : Int :=
  if a - b > i128_max then i128_max
  else if a - b < i128_min then i128_min
  else a - b

/-- Rust `i128::saturating_mul`. -/
def sat_mul_i128 (a b : Int) : Int :=
  if a * b > i128_max then i128_max
  else if a * b < i128_min then i128_min
  else a * b

instance {ε α : Type} [DecidableEq ε] [DecidableEq α] : DecidableEq (Except ε α)
  | .ok x, .ok y =>
    if h : x = y then .isTrue (by simp [h]) else .isFalse (by simp [h])
  | .error x, .error y =>
    if h : x = y then .isTrue (by simp [h]) else .isFalse (by simp [h])
  | .ok _, .error _ => .isFalse (by simp)
  | .error _, .ok _ => .isFalse (by simp)

/-! ### Truncating division facts

Rust's signed `/` and `%` truncate toward zero (`Int.tdiv` / `Int.tmod`).
The bundle below supplies the facts `omega` needs, with the `tdiv`/`tmod`
terms treated as opaque atoms. -/

theorem neg_tmod (a b : Int) : (-a).tmod b = -(a.tmod b) := by
  rw [Int.tmod_def, Int.tmod_def, Int.neg_tdiv]; ring

theorem tdivmod_facts (a b : Int) (hb : 0 < b) :
    b * (a.tdiv b) + a.tmod b = a ∧ a.tmod b < b ∧ -b < a.tmod b ∧
    (0 ≤ a → 0 ≤ a.tmod b ∧ 0 ≤ a.tdiv b) ∧
    (a ≤ 0 → a.tmod b ≤ 0 ∧ a.tdiv b ≤ 0) := by
  refine ⟨by rw [Int.tmod_def]; ring, Int.tmod_lt_of_pos a hb, ?_, ?_, ?_⟩
  · rcases le_or_lt 0 a with h | h
    · have := Int.tmod_nonneg b h
      omega
    · have h1 : (-a).tmod b < b := Int.tmod_lt_of_pos (-a) hb
      have h2 : (-a).tmod b = -(a.tmod b) := neg_tmod a b
      omega
  · intro h
    exact ⟨Int.tmod_nonneg b h, Int.tdiv_nonneg h (le_of_lt hb)⟩
  · intro h
    have h1 : 0 ≤ (-a).tmod b := Int.tmod_nonneg b (by omega)
    have h2 : 0 ≤ (-a).tdiv b := Int.tdiv_nonneg (by omega) (le_of_lt hb)
    have h3 : (-a).tmod b = -(a.tmod b) := neg_tmod a b
    have h4 : (-a).tdiv b = -(a.tdiv b) := Int.neg_tdiv a b
    omega

/-! ### The `Duration` data model -/

/-- `Duration` (src/duration.rs): a span of time with nanosecond precision,
`seconds : i64` and `nanoseconds : i32`. -/
structure Duration where
  seconds : Int
  nanoseconds : Int
deriving DecidableEq

/-- Invariant I1: the `nanoseconds` field lies strictly between `-10^9` and
`10^9`. -/
def Duration.I1 (d : Duration) : Prop :=
  -1000000000 < d.nanoseconds ∧ d.nanoseconds < 1000000000

/-- Invariant I2: the sign of `nanoseconds` matches the sign of `seconds`
whenever `seconds ≠ 0`. -/
def Duration.I2 (d : Duration) : Prop :=
  (0 < d.seconds → 0 ≤ d.nanoseconds) ∧ (d.seconds < 0 → d.nanoseconds ≤ 0)

/-- Both fields within their machine widths (`i64` / `i32`). -/
def Duration.InRange (d : Duration) : Prop :=
  i64_min ≤ d.seconds ∧ d.seconds ≤ i64_max ∧
  i32_min ≤ d.nanoseconds ∧ d.nanoseconds ≤ i32_max

/-- A representable `Duration`: machine-range fields satisfying I1 and I2. -/
def Duration.Valid (d : Duration) : Prop :=
  d.InRange ∧ d.I1 ∧ d.I2

instance (d : Duration) : Decidable d.I1 := by unfold Duration.I1; infer_instance
instance (d : Duration) : Decidable d.I2 := by unfold Duration.I2; infer_instance
instance (d : Duration) : Decidable d.InRange := by unfold Duration.InRange; infer_instance
instance (d : Duration) : Decidable d.Valid := by unfold Duration.Valid; infer_instance

/-- `Duration::max_value`: `seconds = i64::MAX`, `nanoseconds = 999_999_999`. -/
def Duration.max_value : Duration := ⟨i64_max, 999999999⟩

/-- `Duration::min_value`: `seconds = i64::MIN`, `nanoseconds = -999_999_999`. -/
def Duration.min_value : Duration := ⟨i64_min, -999999999⟩

/-- `Duration::seconds`: whole seconds, zero nanoseconds. -/
def Duration.ofSeconds (s : Int) : Duration := ⟨s, 0⟩

/-- `Duration::zero` (`0.seconds()`). -/
def Duration.zero : Duration := Duration.ofSeconds 0

/-- `Duration::is_zero`. -/
def Duration.is_zero (d : Duration) : Bool :=
  d.seconds == 0 && d.nanoseconds == 0

/-- `Duration::is_negative`. -/
def Duration.is_negative (d : Duration) : Bool :=
  d.seconds < 0 || d.nanoseconds < 0

/-- `Duration::is_positive`. -/
def Duration.is_positive (d : Duration) : Bool :=
  0 < d.seconds || 0 < d.nanoseconds

/-- `Duration::whole_seconds`. -/
def Duration.whole_seconds (d : Duration) : Int := d.seconds

/-- `Duration::whole_hours` (`whole_seconds / 3600`). -/
def Duration.whole_hours (d : Duration) : Int := d.seconds.tdiv 3600

/-- `Duration::whole_minutes` (`whole_seconds / 60`). -/
def Duration.whole_minutes (d : Duration) : Int := d.seconds.tdiv 60

/-- `Duration::whole_nanoseconds` (an `i128` in the source; exact here since
`|seconds| ≤ 2^63` keeps the value far inside `i128`). -/
def Duration.whole_nanoseconds (d : Duration) : Int :=
  d.seconds * 1000000000 + d.nanoseconds

/-- `Duration::new`: folds whole seconds out of the nanosecond argument with
truncating division; on `i64` overflow of the fold, clamps to
`max_value` / `min_value` by the sign of `seconds`. -/
def Duration.new (seconds nanoseconds : Int) : Duration :=
  match checked_add_i64 seconds (nanoseconds.tdiv 1000000000) with
  | some s => ⟨s, nanoseconds.tmod 1000000000⟩
  | none => if 0 < seconds then Duration.max_value else Duration.min_value

/-- `Duration::nanoseconds_i128`: clamp to the sentinels outside the
representable total-nanosecond range, otherwise decompose by truncating
division (the `as i64` / `as i32` casts in the source are exact in this
branch). -/
def Duration.nanoseconds_i128 (n : Int) : Duration :=
  if n > Duration.max_value.whole_nanoseconds then Duration.max_value
  else if n < Duration.min_value.whole_nanoseconds then Duration.min_value
  else ⟨n.tdiv 1000000000, n.tmod 1000000000⟩

theorem Duration.seconds_mk (s n : Int) : (Duration.mk s n).seconds = s := rfl

theorem Duration.nanoseconds_mk (s n : Int) : (Duration.mk s n).nanoseconds = n := rfl

/-- Evaluation of `Duration::new` when the folded second count fits `i64`. -/
theorem Duration.new_eq_of_fit (s n : Int)
    (h1 : i64_min ≤ s + n.tdiv 1000000000)
    (h2 : s + n.tdiv 1000000000 ≤ i64_max) :
    Duration.new s n = ⟨s + n.tdiv 1000000000, n.tmod 1000000000⟩ := by
  unfold Duration.new checked_add_i64
  rw [if_pos ⟨h1, h2⟩]

/-! ### The foreign (std) duration and conversions -/

/-- `core::time::Duration`: seconds (`u64`) and sub-second nanoseconds
(`u32`, kept below `10^9`). -/
structure StdDuration where
  secs : Int
  nanos : Int
deriving DecidableEq

theorem StdDuration.secs_mk (s n : Int) : (StdDuration.mk s n).secs = s := rfl

theorem StdDuration.nanos_mk (s n : Int) : (StdDuration.mk s n).nanos = n := rfl

/-- A well-formed std duration: both components non-negative, `secs` within
`u64`, `nanos` below `10^9` (guaranteed by the std constructor). -/
def StdDuration.Valid (sd : StdDuration) : Prop :=
  0 ≤ sd.secs ∧ sd.secs ≤ u64_max ∧ 0 ≤ sd.nanos ∧ sd.nanos < 1000000000

instance (sd : StdDuration) : Decidable sd.Valid := by
  unfold StdDuration.Valid; infer_instance

/-- `core::time::Duration::new`: folds surplus whole seconds out of the
nanosecond argument.  (The `u64` overflow panic of that fold is unreachable
from the call sites embedded here, where `secs ≤ i64::MAX`.) -/
def StdDuration.new (secs nanos : Int) : StdDuration :=
  ⟨secs + nanos.tdiv 1000000000, nanos.tmod 1000000000⟩

/-- `core::time::Duration::as_nanos` (a `u128` in the source). -/
def StdDuration.as_nanos (sd : StdDuration) : Int :=
  sd.secs * 1000000000 + sd.nanos

theorem StdDuration.as_nanos_mk (s n : Int) :
    (StdDuration.mk s n).as_nanos = s * 1000000000 + n := rfl

/-- `error::ConversionRange`. -/
inductive ConversionRange
  | mk
deriving DecidableEq

/-- `TryFrom<StdDuration> for Duration`: `u64 → i64` fails above `i64::MAX`,
`u32 → i32` fails above `i32::MAX`, otherwise `Duration::new` on the parts. -/
def try_from_std (sd : StdDuration) : Except ConversionRange Duration :=
  if i64_max < sd.secs then .error .mk
  else if i32_max < sd.nanos then .error .mk
  else .ok (Duration.new sd.secs sd.nanos)

/-- `TryFrom<Duration> for StdDuration`: `i64 → u64` and `i32 → u32` each
fail on a negative field, otherwise `StdDuration::new` on the parts. -/
def try_from_duration (d : Duration) : Except ConversionRange StdDuration :=
  if d.seconds < 0 then .error .mk
  else if d.nanoseconds < 0 then .error .mk
  else .ok (StdDuration.new d.seconds d.nanoseconds)

/-! ### Arithmetic operators -/

/-- `Add for Duration`: saturating `i128` add of total nanoseconds, then
renormalize. -/
def Duration.add (a b : Duration) : Duration :=
  Duration.nanoseconds_i128 (sat_add_i128 a.whole_nanoseconds b.whole_nanoseconds)

/-- `Sub for Duration`. -/
def Duration.sub (a b : Duration) : Duration :=
  Duration.nanoseconds_i128 (sat_sub_i128 a.whole_nanoseconds b.whole_nanoseconds)

/-- `Add<StdDuration> for Duration`. -/
def Duration.add_std (a : Duration) (sd : StdDuration) : Duration :=
  Duration.nanoseconds_i128 (sat_add_i128 a.whole_nanoseconds sd.as_nanos)

/-- `Sub<StdDuration> for Duration`. -/
def Duration.sub_std (a : Duration) (sd : StdDuration) : Duration :=
  Duration.nanoseconds_i128 (sat_sub_i128 a.whole_nanoseconds sd.as_nanos)

/-- `Sub<Duration> for StdDuration` (result is a signed `Duration`). -/
def StdDuration.sub_duration (sd : StdDuration) (d : Duration) : Duration :=
  Duration.nanoseconds_i128 (sat_sub_i128 sd.as_nanos d.whole_nanoseconds)

/-- `Mul<int> for Duration` (one instance of the `duration_mul_div_int!`
macro; every supported 8/16/32-bit integer type is widened to `i128` by the
`as i128` cast, embedded as the exact `Int` value). -/
def Duration.mul_int (a : Duration) (k : Int) : Duration :=
  Duration.nanoseconds_i128 (sat_mul_i128 a.whole_nanoseconds k)

/-- `Div<int> for Duration`: plain (non-saturating) `i128` division; `none`
models the division panic (`rhs = 0`, or the unreachable `i128::MIN / -1`
overflow). -/
def Duration.div_int (a : Duration) (k : Int) : Option Duration :=
  if k = 0 ∨ (a.whole_nanoseconds = i128_min ∧ k = -1) then none
  else some (Duration.nanoseconds_i128 (a.whole_nanoseconds.tdiv k))

/-- `Neg for Duration` (`-1 * self`). -/
def Duration.neg (a : Duration) : Duration := a.mul_int (-1)

/-- `SubAssign<Duration> for StdDuration`: saturating signed subtraction
followed by the fallible conversion back to the std type; `none` models the
`expect` panic on a negative result. -/
def StdDuration.sub_assign_duration (sd : StdDuration) (d : Duration) :
    Option StdDuration :=
  match try_from_duration (sd.sub_duration d) with
  | .ok r => some r
  | .error _ => none

/-- Rust `i64::abs` / `i32::abs`: overflows (panics) exactly at the minimum
value; `none` models that panic. -/
def checked_abs (a bound_min : Int) : Option Int :=
  if a = bound_min then none else some |a|

/-- `Duration::abs`: absolute value of each field separately. -/
def Duration.abs (d : Duration) : Option Duration :=
  match checked_abs d.seconds i64_min, checked_abs d.nanoseconds i32_min with
  | some s, some n => some ⟨s, n⟩
  | _, _ => none

/-! ### Comparisons -/

/-- `Ord::cmp` on a primitive integer. -/
def int_cmp (a b : Int) : Ordering :=
  if a < b then .lt else if a = b then .eq else .gt

/-- `Ord for Duration`: lexicographic on `(seconds, nanoseconds)`. -/
def Duration.cmp (a b : Duration) : Ordering :=
  (int_cmp a.seconds b.seconds).then (int_cmp a.nanoseconds b.nanoseconds)

/-- `PartialOrd<StdDuration> for Duration`: short-circuits to `Greater` when
the std side's seconds exceed `i64::MAX`, otherwise lexicographic. -/
def Duration.cmp_with_std (d : Duration) (sd : StdDuration) : Option Ordering :=
  if i64_max < sd.secs then some .gt
  else some ((int_cmp d.seconds sd.secs).then (int_cmp d.nanoseconds sd.nanos))

/-- `PartialOrd<Duration> for StdDuration`: the reversed mirror image. -/
def StdDuration.cmp_with_duration (sd : StdDuration) (d : Duration) :
    Option Ordering :=
  (d.cmp_with_std sd).map Ordering.swap

/-! ### Claim C1 -/

/-- Claim C1 (corrected), counterexample: `Duration::new(1, -500_000_000)`
has a positive `seconds` field and a negative `nanoseconds` field, so the
claim that `new` always establishes invariant I2 fails at an input with
`|n| < 2_000_000_000`. -/
theorem new_violates_I2_on_mixed_signs :
    ((-500000000 : Int) < 2000000000 ∧ (-2000000000 : Int) < -500000000) ∧
    Duration.new 1 (-500000000) = ⟨1, -500000000⟩ ∧
    ¬ (Duration.new 1 (-500000000)).I2 := by decide

/-- Claim C1 (amended): for `i64` seconds `s` and `i32` nanoseconds `n` with
`|n| < 2_000_000_000`, `Duration::new(s, n)` satisfies invariant I1, and it
satisfies invariant I2 provided `s` and `n` are not of strictly opposite
signs. -/
theorem new_invariants (s n : Int)
    (hs1 : i64_min ≤ s) (hs2 : s ≤ i64_max)
    (hn1 : -2000000000 < n) (hn2 : n < 2000000000) :
    (Duration.new s n).I1 ∧
    (((0 ≤ s ∧ 0 ≤ n) ∨ (s ≤ 0 ∧ n ≤ 0)) → (Duration.new s n).I2) := by
  obtain ⟨heq, hlt, hgt, hpos, hneg⟩ := tdivmod_facts n 1000000000 (by norm_num)
  unfold Duration.new
  split
  next s2 hsome =>
    simp only [checked_add_i64] at hsome
    split_ifs at hsome with hr
    simp only [Option.some.injEq] at hsome
    subst hsome
    simp only [Duration.I1, Duration.I2]
    constructor
    · exact ⟨hgt, hlt⟩
    · rintro (⟨hs, hn⟩ | ⟨hs, hn⟩)
      · have h1 := hpos hn
        exact ⟨fun _ => h1.1, fun hc => by omega⟩
      · have h1 := hneg hn
        exact ⟨fun hc => by omega, fun _ => h1.1⟩
  next hnone =>
    split_ifs <;> exact ⟨by decide, fun _ => by decide⟩

/-- Witness for `new_invariants` at `s = 3`, `n = 1_500_000_000`. -/
theorem new_invariants_witness :
    (Duration.new 3 1500000000).I1 ∧ (Duration.new 3 1500000000).I2 :=
  ⟨(new_invariants 3 1500000000 (by decide) (by decide) (by decide) (by decide)).1,
   (new_invariants 3 1500000000 (by decide) (by decide) (by decide) (by decide)).2
     (Or.inl (by decide))⟩

/-! ### Normalization lemmas -/

theorem max_wn :
    Duration.max_value.whole_nanoseconds = 9223372036854775807999999999 := by
  decide

theorem min_wn :
    Duration.min_value.whole_nanoseconds = -9223372036854775808999999999 := by
  decide

/-- The renormalization routine establishes I1 and I2 on every input,
whatever the operands looked like. -/
theorem nanoseconds_i128_I1_I2 (n : Int) :
    (Duration.nanoseconds_i128 n).I1 ∧ (Duration.nanoseconds_i128 n).I2 := by
  unfold Duration.nanoseconds_i128
  split_ifs with h1 h2
  · decide
  · decide
  · obtain ⟨heq, hlt, hgt, hpos, hneg⟩ :=
      tdivmod_facts n 1000000000 (by norm_num)
    simp only [Duration.I1, Duration.I2]
    refine ⟨⟨hgt, hlt⟩, ?_, ?_⟩ <;> intro hc
    · rcases le_or_lt 0 n with h | h
      · exact (hpos h).1
      · exact absurd hc (by have := hneg (le_of_lt h); omega)
    · rcases le_or_lt n 0 with h | h
      · exact (hneg h).1
      · exact absurd hc (by have := hpos (le_of_lt h); omega)

theorem nanoseconds_i128_high (n : Int)
    (h : Duration.max_value.whole_nanoseconds < n) :
    Duration.nanoseconds_i128 n = Duration.max_value := by
  unfold Duration.nanoseconds_i128
  rw [if_pos h]

theorem nanoseconds_i128_low (n : Int)
    (h : n < Duration.min_value.whole_nanoseconds) :
    Duration.nanoseconds_i128 n = Duration.min_value := by
  rw [min_wn] at h
  unfold Duration.nanoseconds_i128
  rw [max_wn, min_wn, if_neg (by omega), if_pos (by omega)]

theorem nanoseconds_i128_mid (n : Int)
    (h1 : Duration.min_value.whole_nanoseconds ≤ n)
    (h2 : n ≤ Duration.max_value.whole_nanoseconds) :
    Duration.nanoseconds_i128 n = ⟨n.tdiv 1000000000, n.tmod 1000000000⟩ := by
  rw [min_wn] at h1
  rw [max_wn] at h2
  unfold Duration.nanoseconds_i128
  rw [max_wn, min_wn, if_neg (by omega), if_neg (by omega)]

/-- Total nanoseconds of a representable duration stay within the sentinel
range. -/
theorem wn_bounds (d : Duration) (h : d.Valid) :
    Duration.min_value.whole_nanoseconds ≤ d.whole_nanoseconds ∧
    d.whole_nanoseconds ≤ Duration.max_value.whole_nanoseconds := by
  obtain ⟨⟨h1, h2, h3, h4⟩, ⟨h5, h6⟩, -⟩ := h
  rw [max_wn, min_wn]
  simp only [Duration.whole_nanoseconds, i64_min, i64_max] at *
  omega

/-- For a representable duration, truncating decomposition of the total
nanosecond count recovers the two fields (this needs I2: with mixed-sign
fields the truncated quotient would differ). -/
theorem wn_decomp (d : Duration) (h : d.Valid) :
    d.whole_nanoseconds.tdiv 1000000000 = d.seconds ∧
    d.whole_nanoseconds.tmod 1000000000 = d.nanoseconds := by
  obtain ⟨-, ⟨hI1a, hI1b⟩, ⟨hI2a, hI2b⟩⟩ := h
  obtain ⟨heq, hlt, hgt, hpos, hneg⟩ :=
    tdivmod_facts d.whole_nanoseconds 1000000000 (by norm_num)
  simp only [Duration.whole_nanoseconds] at *
  rcases lt_trichotomy d.seconds 0 with hs | hs | hs
  · have hn := hI2b hs
    have h0 := hneg (by omega)
    omega
  · rcases le_or_lt 0 d.nanoseconds with hn | hn
    · have h0 := hpos (by omega)
      omega
    · have h0 := hneg (by omega)
      omega
  · have hn := hI2a hs
    have h0 := hpos (by omega)
    omega

theorem sat_add_i128_exact (a b : Int)
    (h1 : i128_min ≤ a + b) (h2 : a + b ≤ i128_max) :
    sat_add_i128 a b = a + b := by
  unfold sat_add_i128
  rw [if_neg (by omega), if_neg (by omega)]

theorem sat_sub_i128_exact (a b : Int)
    (h1 : i128_min ≤ a - b) (h2 : a - b ≤ i128_max) :
    sat_sub_i128 a b = a - b := by
  unfold sat_sub_i128
  rw [if_neg (by omega), if_neg (by omega)]

theorem sat_mul_i128_exact (a b : Int)
    (h1 : i128_min ≤ a * b) (h2 : a * b ≤ i128_max) :
    sat_mul_i128 a b = a * b := by
  unfold sat_mul_i128
  rw [if_neg (by omega), if_neg (by omega)]

/-- Negation is exact on every representable duration whose `seconds` field
is above `i64::MIN`: it flips both fields. -/
theorem neg_eq_of_valid (d : Duration) (h : d.Valid) (hmin : d.seconds ≠ i64_min) :
    d.neg = ⟨-d.seconds, -d.nanoseconds⟩ := by
  obtain ⟨hdec1, hdec2⟩ := wn_decomp d h
  obtain ⟨⟨hr1, hr2, hr3, hr4⟩, ⟨h5, h6⟩, -⟩ := h
  simp only [i64_min, i64_max] at hr1 hr2 hmin
  have hw1 : -9223372036854775807999999999 ≤ d.whole_nanoseconds := by
    simp only [Duration.whole_nanoseconds]
    omega
  have hw2 : d.whole_nanoseconds ≤ 9223372036854775807999999999 := by
    simp only [Duration.whole_nanoseconds]
    omega
  unfold Duration.neg Duration.mul_int
  have hmul : d.whole_nanoseconds * (-1) = -(d.whole_nanoseconds) := by ring
  rw [sat_mul_i128_exact _ _ (by unfold i128_min; omega)
        (by unfold i128_max; omega),
      hmul,
      nanoseconds_i128_mid _ (by rw [min_wn]; omega) (by rw [max_wn]; omega),
      Int.neg_tdiv, neg_tmod, hdec1, hdec2]

/-! ### Claim C9 -/

/-- Claim C9 (confirmed): every arithmetic operator that funnels through
`nanoseconds_i128` — add, sub, the mixed ops with the std duration,
negation, multiplication and division by an integer — yields a result
satisfying invariants I1 and I2, for arbitrary operand field values. -/
theorem ops_establish_invariants (a b : Duration) (sd : StdDuration) (k : Int) :
    ((a.add b).I1 ∧ (a.add b).I2) ∧
    ((a.sub b).I1 ∧ (a.sub b).I2) ∧
    ((a.add_std sd).I1 ∧ (a.add_std sd).I2) ∧
    ((a.sub_std sd).I1 ∧ (a.sub_std sd).I2) ∧
    ((sd.sub_duration a).I1 ∧ (sd.sub_duration a).I2) ∧
    (a.neg.I1 ∧ a.neg.I2) ∧
    ((a.mul_int k).I1 ∧ (a.mul_int k).I2) ∧
    (∀ d : Duration, a.div_int k = some d → d.I1 ∧ d.I2) := by
  refine ⟨nanoseconds_i128_I1_I2 _, nanoseconds_i128_I1_I2 _,
    nanoseconds_i128_I1_I2 _, nanoseconds_i128_I1_I2 _,
    nanoseconds_i128_I1_I2 _, nanoseconds_i128_I1_I2 _,
    nanoseconds_i128_I1_I2 _, ?_⟩
  intro d hd
  unfold Duration.div_int at hd
  split_ifs at hd
  simp only [Option.some.injEq] at hd
  subst hd
  exact nanoseconds_i128_I1_I2 _

/-- Witness for `ops_establish_invariants`: the first operand violates I2
(`seconds = 1`, `nanoseconds = -500_000_000`), yet addition renormalizes. -/
theorem ops_establish_invariants_witness :
    ((Duration.mk 1 (-500000000)).add (Duration.mk 2 7)).I1 ∧
    ((Duration.mk 1 (-500000000)).add (Duration.mk 2 7)).I2 :=
  (ops_establish_invariants ⟨1, -500000000⟩ ⟨2, 7⟩ ⟨5, 5⟩ 3).1

/-! ### Claim C4 -/

/-- Any positive representable duration has at least one total nanosecond. -/
theorem pos_wn (p : Duration) (h : p.Valid) (hp : p.is_positive = true) :
    1 ≤ p.whole_nanoseconds := by
  obtain ⟨⟨h1, h2, h3, h4⟩, ⟨h5, h6⟩, ⟨h7, h8⟩⟩ := h
  simp only [Duration.is_positive, Bool.or_eq_true, decide_eq_true_eq] at hp
  simp only [Duration.whole_nanoseconds]
  rcases hp with hp | hp
  · have := h7 hp
    omega
  · rcases lt_trichotomy p.seconds 0 with hs | hs | hs
    · have := h8 hs
      omega
    · omega
    · omega

/-- Claim C4 (confirmed): addition and subtraction saturate at the
sentinels — `max_value + p = max_value` and `min_value - p = min_value` for
every positive `p`, and in general whenever the exact total-nanosecond sum
or difference leaves the representable range the result is clamped to the
corresponding sentinel. -/
theorem add_sub_saturate :
    (∀ p : Duration, p.Valid → p.is_positive = true →
      Duration.max_value.add p = Duration.max_value ∧
      Duration.min_value.sub p = Duration.min_value) ∧
    (∀ a b : Duration, a.Valid → b.Valid →
      (Duration.max_value.whole_nanoseconds <
          a.whole_nanoseconds + b.whole_nanoseconds →
        a.add b = Duration.max_value) ∧
      (a.whole_nanoseconds + b.whole_nanoseconds <
          Duration.min_value.whole_nanoseconds →
        a.add b = Duration.min_value) ∧
      (Duration.max_value.whole_nanoseconds <
          a.whole_nanoseconds - b.whole_nanoseconds →
        a.sub b = Duration.max_value) ∧
      (a.whole_nanoseconds - b.whole_nanoseconds <
          Duration.min_value.whole_nanoseconds →
        a.sub b = Duration.min_value)) := by
  have key : ∀ a b : Duration, a.Valid → b.Valid →
      (Duration.max_value.whole_nanoseconds <
          a.whole_nanoseconds + b.whole_nanoseconds →
        a.add b = Duration.max_value) ∧
      (a.whole_nanoseconds + b.whole_nanoseconds <
          Duration.min_value.whole_nanoseconds →
        a.add b = Duration.min_value) ∧
      (Duration.max_value.whole_nanoseconds <
          a.whole_nanoseconds - b.whole_nanoseconds →
        a.sub b = Duration.max_value) ∧
      (a.whole_nanoseconds - b.whole_nanoseconds <
          Duration.min_value.whole_nanoseconds →
        a.sub b = Duration.min_value) := by
    intro a b ha hb
    obtain ⟨hba1, hba2⟩ := wn_bounds a ha
    obtain ⟨hbb1, hbb2⟩ := wn_bounds b hb
    rw [max_wn] at *
    rw [min_wn] at *
    have hadd : Duration.add a b =
        Duration.nanoseconds_i128 (a.whole_nanoseconds + b.whole_nanoseconds) := by
      unfold Duration.add
      rw [sat_add_i128_exact _ _ (by unfold i128_min; omega) (by unfold i128_max; omega)]
    have hsub : Duration.sub a b =
        Duration.nanoseconds_i128 (a.whole_nanoseconds - b.whole_nanoseconds) := by
      unfold Duration.sub
      rw [sat_sub_i128_exact _ _ (by unfold i128_min; omega) (by unfold i128_max; omega)]
    refine ⟨fun h => ?_, fun h => ?_, fun h => ?_, fun h => ?_⟩
    · rw [hadd, nanoseconds_i128_high _ (by rw [max_wn]; omega)]
    · rw [hadd, nanoseconds_i128_low _ (by rw [min_wn]; omega)]
    · rw [hsub, nanoseconds_i128_high _ (by rw [max_wn]; omega)]
    · rw [hsub, nanoseconds_i128_low _ (by rw [min_wn]; omega)]
  refine ⟨fun p hp hpos => ?_, key⟩
  have h1 := pos_wn p hp hpos
  obtain ⟨hka, hkb, hkc, hkd⟩ :=
    key Duration.max_value p (by decide) hp
  obtain ⟨hla, hlb, hlc, hld⟩ :=
    key Duration.min_value p (by decide) hp
  obtain ⟨hb1, hb2⟩ := wn_bounds p hp
  rw [max_wn] at *
  rw [min_wn] at *
  exact ⟨hka (by omega), hld (by omega)⟩

/-- Witness for `add_sub_saturate` at `p = 1.seconds()` and the pair
`(max_value, 1.seconds())`. -/
theorem add_sub_saturate_witness :
    (Duration.max_value.add (Duration.ofSeconds 1) = Duration.max_value ∧
      Duration.min_value.sub (Duration.ofSeconds 1) = Duration.min_value) ∧
    (Duration.max_value.whole_nanoseconds <
        Duration.max_value.whole_nanoseconds +
          (Duration.ofSeconds 1).whole_nanoseconds →
      Duration.max_value.add (Duration.ofSeconds 1) = Duration.max_value) :=
  ⟨add_sub_saturate.1 (Duration.ofSeconds 1) (by decide) (by decide),
   (add_sub_saturate.2 Duration.max_value (Duration.ofSeconds 1)
      (by decide) (by decide)).1⟩

/-! ### Claim C3 -/

/-- Claim C3 (corrected), counterexample: `abs(min_value)` does not saturate
to `max_value`; the field-wise `i64::abs` overflows (modelled as `none`). -/
theorem abs_min_value_overflows :
    Duration.min_value.abs = none ∧
    Duration.min_value.abs ≠ some Duration.max_value := by decide

/-- Claim C3 (amended): `abs(x) = abs(-x)` for every representable `x`
whose `seconds` field is not `i64::MIN` (both equal the field-wise absolute
value); for `min_value` itself, `abs` overflows `i64` (a panic, not a
saturation to `max_value`), while its negation is exactly `max_value`. -/
theorem abs_neg_abs :
    (∀ d : Duration, d.Valid → d.seconds ≠ i64_min →
      d.neg.abs = d.abs ∧ d.abs = some ⟨|d.seconds|, |d.nanoseconds|⟩) ∧
    Duration.min_value.abs = none ∧
    Duration.min_value.neg = Duration.max_value := by
  refine ⟨fun d hv hmin => ?_, by decide, by decide⟩
  obtain ⟨⟨hr1, hr2, hr3, hr4⟩, ⟨h5, h6⟩, hI2⟩ := hv
  have habs : d.abs = some ⟨|d.seconds|, |d.nanoseconds|⟩ := by
    unfold Duration.abs checked_abs
    rw [if_neg hmin, if_neg (by simp only [i32_min]; omega)]
  refine ⟨?_, habs⟩
  rw [neg_eq_of_valid d ⟨⟨hr1, hr2, hr3, hr4⟩, ⟨h5, h6⟩, hI2⟩ hmin, habs]
  unfold Duration.abs checked_abs
  rw [if_neg (by simp only [i64_min, i64_max] at *; omega),
      if_neg (by simp only [i32_min]; omega)]
  simp [abs_neg]

/-- Witness for `abs_neg_abs` at `x = -1.seconds()`. -/
theorem abs_neg_abs_witness :
    (Duration.ofSeconds (-1)).neg.abs = (Duration.ofSeconds (-1)).abs ∧
    (Duration.ofSeconds (-1)).abs = some ⟨1, 0⟩ := by
  have h := abs_neg_abs.1 (Duration.ofSeconds (-1)) (by decide) (by decide)
  exact ⟨h.1, by rw [h.2]; decide⟩

/-! ### Claim C2 -/

/-- Claim C2 (code bug): comparing against a std duration whose seconds
exceed `i64::MAX` makes the `Duration` side report `Greater` (and the std
side `Less`), claiming the bounded signed value exceeds the astronomically
larger foreign one — inconsistent with the lexicographic branch one second
earlier, which correctly reports `Less` against `i64::MAX` seconds. -/
theorem cmp_with_std_flips_at_boundary :
    Duration.zero.cmp_with_std ⟨9223372036854775807, 0⟩ = some .lt ∧
    Duration.zero.cmp_with_std ⟨9223372036854775808, 0⟩ = some .gt ∧
    StdDuration.cmp_with_duration ⟨9223372036854775808, 0⟩ Duration.zero =
      some .lt ∧
    Duration.max_value.cmp_with_std ⟨9223372036854775808, 0⟩ = some .gt := by
  decide

/-! ### Claim C5 -/

theorem tdiv_tmod_small (n : Int) (h1 : 0 ≤ n) (h2 : n < 1000000000) :
    n.tdiv 1000000000 = 0 ∧ n.tmod 1000000000 = n := by
  obtain ⟨heq, hlt, hgt, hpos, hneg⟩ := tdivmod_facts n 1000000000 (by norm_num)
  have := hpos h1
  omega

/-- Claim C5 (confirmed): `Duration → StdDuration` fails with
`ConversionRange` exactly on negative durations (in particular at
`-1.seconds()`); `StdDuration → Duration` fails exactly when the foreign
whole-second count exceeds `i64::MAX`; and every non-negative representable
duration round-trips through the foreign type. -/
theorem conversion_boundary :
    (∀ sd : StdDuration, sd.Valid →
      (try_from_std sd = .error .mk ↔ i64_max < sd.secs)) ∧
    (∀ d : Duration, d.Valid →
      (try_from_duration d = .error .mk ↔ d.is_negative = true)) ∧
    try_from_duration (Duration.ofSeconds (-1)) = .error .mk ∧
    (∀ d : Duration, d.Valid → d.is_negative = false →
      ∃ sd, try_from_duration d = .ok sd ∧ try_from_std sd = .ok d) := by
  refine ⟨fun sd hv => ?_, fun d hv => ?_, by decide, fun d hv hneg => ?_⟩
  · obtain ⟨h1, h2, h3, h4⟩ := hv
    unfold try_from_std
    split_ifs with hc1 hc2
    · simp [hc1]
    · exact absurd hc2 (by simp only [i32_max]; omega)
    · simp [hc1]
  · unfold try_from_duration
    simp only [Duration.is_negative, Bool.or_eq_true, decide_eq_true_eq]
    split_ifs with hc1 hc2
    · simp [hc1]
    · simp [hc2]
    · simp only [reduceCtorEq, false_iff]
      omega
  · obtain ⟨⟨hr1, hr2, hr3, hr4⟩, ⟨h5, h6⟩, -⟩ := hv
    obtain ⟨hs0, hn0⟩ : ¬ d.seconds < 0 ∧ ¬ d.nanoseconds < 0 := by
      simpa [Duration.is_negative] using hneg
    obtain ⟨hq, hr⟩ := tdiv_tmod_small d.nanoseconds (by omega) (by omega)
    have hnew : StdDuration.new d.seconds d.nanoseconds =
        ⟨d.seconds, d.nanoseconds⟩ := by
      unfold StdDuration.new
      rw [hq, hr]
      simp
    refine ⟨⟨d.seconds, d.nanoseconds⟩, ?_, ?_⟩
    · unfold try_from_duration
      rw [if_neg hs0, if_neg hn0, hnew]
    · unfold try_from_std
      rw [if_neg (by simp only [StdDuration.secs_mk]; omega),
        if_neg (by simp only [StdDuration.nanos_mk, i32_max]; omega)]
      simp only [StdDuration.secs_mk, StdDuration.nanos_mk]
      rw [Duration.new_eq_of_fit d.seconds d.nanoseconds (by omega) (by omega),
        hq, hr]
      simp

/-- Witness for `conversion_boundary` at `sd = 1s` and `d = 2s`. -/
theorem conversion_boundary_witness :
    (try_from_std ⟨1, 0⟩ = .error .mk ↔ i64_max < (1 : Int)) ∧
    (try_from_duration (Duration.ofSeconds 2) = .error .mk ↔
      (Duration.ofSeconds 2).is_negative = true) ∧
    (∃ sd, try_from_duration (Duration.ofSeconds 2) = .ok sd ∧
      try_from_std sd = .ok (Duration.ofSeconds 2)) :=
  ⟨conversion_boundary.1 ⟨1, 0⟩ (by decide),
   conversion_boundary.2.1 (Duration.ofSeconds 2) (by decide),
   conversion_boundary.2.2.2 (Duration.ofSeconds 2) (by decide) (by decide)⟩

/-! ### Claim C6 -/

/-- Claim C6 (corrected), counterexample: subtracting `-1.seconds()` from a
foreign duration of `u64::MAX` seconds pushes the true difference past
`Duration::max_value`; the saturating representation clamps, the conversion
back succeeds, and the stored value is the clamp, not the exact
difference — so "the operand is replaced by the exact difference whenever
the result is non-negative" fails. -/
theorem sub_assign_clamps_counterexample :
    (StdDuration.mk 18446744073709551615 0).sub_assign_duration
        (Duration.ofSeconds (-1)) = some ⟨9223372036854775807, 999999999⟩ ∧
    (StdDuration.mk 9223372036854775807 999999999).as_nanos ≠
      (StdDuration.mk 18446744073709551615 0).as_nanos -
        (Duration.ofSeconds (-1)).whole_nanoseconds := by decide

/-- Claim C6 (amended): `foreign -= duration` panics (with the `expect`
diagnostic) exactly when the mathematical difference is negative; when the
difference is non-negative and within the `Duration` representable range
the operand is replaced by the exact difference; a non-negative difference
beyond `Duration::max_value` (possible only when subtracting a negative
duration) is clamped to `max_value` instead. -/
theorem sub_assign_behaviour (sd : StdDuration) (d : Duration)
    (hsd : sd.Valid) (hd : d.Valid) :
    (sd.sub_assign_duration d = none ↔
      sd.as_nanos - d.whole_nanoseconds < 0) ∧
    (0 ≤ sd.as_nanos - d.whole_nanoseconds →
      sd.as_nanos - d.whole_nanoseconds ≤
        Duration.max_value.whole_nanoseconds →
      ∃ r, sd.sub_assign_duration d = some r ∧
        r.as_nanos = sd.as_nanos - d.whole_nanoseconds) ∧
    (Duration.max_value.whole_nanoseconds <
        sd.as_nanos - d.whole_nanoseconds →
      sd.sub_assign_duration d = some ⟨i64_max, 999999999⟩) := by
  obtain ⟨hw1, hw2⟩ := wn_bounds d hd
  rw [max_wn] at hw2 ⊢
  rw [min_wn] at hw1
  obtain ⟨hv1, hv2, hv3, hv4⟩ := hsd
  simp only [u64_max] at hv2
  have hsn1 : 0 ≤ sd.as_nanos := by
    unfold StdDuration.as_nanos
    omega
  have hsn2 : sd.as_nanos ≤ 18446744073709551615999999999 := by
    unfold StdDuration.as_nanos
    omega
  have hsub : sd.sub_duration d =
      Duration.nanoseconds_i128 (sd.as_nanos - d.whole_nanoseconds) := by
    unfold StdDuration.sub_duration
    rw [sat_sub_i128_exact _ _ (by unfold i128_min; omega) (by unfold i128_max; omega)]
  unfold StdDuration.sub_assign_duration
  rw [hsub]
  rcases lt_trichotomy (sd.as_nanos - d.whole_nanoseconds) 0 with hm | hm | hm
  · -- negative difference: the conversion back fails, i.e. a panic
    have hnone : (match try_from_duration
        (Duration.nanoseconds_i128 (sd.as_nanos - d.whole_nanoseconds)) with
        | .ok r => some r
        | .error _ => (none : Option StdDuration)) = none := by
      rcases le_or_lt (-9223372036854775808999999999)
          (sd.as_nanos - d.whole_nanoseconds) with hlo | hlo
      · rw [nanoseconds_i128_mid _ (by rw [min_wn]; omega) (by rw [max_wn]; omega)]
        obtain ⟨heq, hlt, hgt, hpos, hneg2⟩ :=
          tdivmod_facts (sd.as_nanos - d.whole_nanoseconds) 1000000000 (by norm_num)
        obtain ⟨hr0, hq0⟩ := hneg2 (by omega)
        unfold try_from_duration
        split_ifs with hc1 hc2
        · rfl
        · rfl
        · exfalso
          have hc1a : ¬ (sd.as_nanos - d.whole_nanoseconds).tdiv 1000000000 < 0 := hc1
          have hc2a : ¬ (sd.as_nanos - d.whole_nanoseconds).tmod 1000000000 < 0 := hc2
          omega
      · rw [nanoseconds_i128_low _ (by rw [min_wn]; omega)]
        decide
    rw [hnone]
    refine ⟨⟨fun _ => hm, fun _ => rfl⟩, fun h0 _ => absurd hm (by omega),
      fun hbig => absurd hm (by omega)⟩
  · -- zero difference
    rw [hm, (by decide : Duration.nanoseconds_i128 (0 : Int) = ⟨0, 0⟩)]
    refine ⟨by decide, fun _ _ => ⟨⟨0, 0⟩, by decide, by decide⟩,
      fun hbig => absurd hbig (by decide)⟩
  · -- positive difference
    rcases le_or_lt (sd.as_nanos - d.whole_nanoseconds) 9223372036854775807999999999
        with hhi | hhi
    · -- representable: exact
      rw [nanoseconds_i128_mid _ (by rw [min_wn]; omega) (by rw [max_wn]; omega)]
      obtain ⟨heq, hlt, hgt, hpos, hneg2⟩ :=
        tdivmod_facts (sd.as_nanos - d.whole_nanoseconds) 1000000000 (by norm_num)
      obtain ⟨hr0, hq0⟩ := hpos (by omega)
      obtain ⟨hq2, hr2⟩ := tdiv_tmod_small
        ((sd.as_nanos - d.whole_nanoseconds).tmod 1000000000) hr0 hlt
      have hok : try_from_duration
          ⟨(sd.as_nanos - d.whole_nanoseconds).tdiv 1000000000,
            (sd.as_nanos - d.whole_nanoseconds).tmod 1000000000⟩ =
          .ok ⟨(sd.as_nanos - d.whole_nanoseconds).tdiv 1000000000,
            (sd.as_nanos - d.whole_nanoseconds).tmod 1000000000⟩ := by
        unfold try_from_duration
        rw [if_neg (by simp only [Duration.seconds_mk]; omega),
          if_neg (by simp only [Duration.nanoseconds_mk]; omega)]
        unfold StdDuration.new
        simp only [Duration.seconds_mk, Duration.nanoseconds_mk, hq2, hr2,
          Int.add_zero]
      rw [hok]
      refine ⟨⟨fun hc => by simp at hc, fun hc => absurd hc (by omega)⟩,
        fun _ _ => ⟨_, rfl, by
          simp only [StdDuration.as_nanos_mk]
          omega⟩,
        fun hbig => absurd hbig (by omega)⟩
    · -- beyond max_value: clamp
      rw [nanoseconds_i128_high _ (by rw [max_wn]; omega)]
      have hok : try_from_duration Duration.max_value =
          .ok ⟨9223372036854775807, 999999999⟩ := by decide
      rw [hok]
      refine ⟨⟨fun hc => by simp at hc, fun hc => absurd hc (by omega)⟩,
        fun _ hcon => absurd hcon (by omega),
        fun _ => by simp only [i64_max]⟩

/-- Witness for `sub_assign_behaviour`: `5s -= 2s` stores the exact 3s. -/
theorem sub_assign_behaviour_witness :
    ∃ r, (StdDuration.mk 5 0).sub_assign_duration (Duration.ofSeconds 2) =
        some r ∧
      r.as_nanos = (StdDuration.mk 5 0).as_nanos -
        (Duration.ofSeconds 2).whole_nanoseconds :=
  (sub_assign_behaviour ⟨5, 0⟩ (Duration.ofSeconds 2) (by decide)
    (by decide)).2.1 (by decide) (by decide)

/-! ### Floating-point division paths

A minimal model of `f64` for the division operators: finite values are
carried as exact rationals (rounding is not modelled — only the IEEE-754
special-value behaviour at a zero divisor matters to the claims below),
plus the special values `±∞` and `NaN`.  Signed zeros are not modelled. -/

inductive F64 where
  | finite (val : ℚ)
  | posInf
  | negInf
  | nan
deriving DecidableEq

/-- IEEE-754 division on the model: a zero divisor yields `NaN` for a zero
dividend and a signed infinity otherwise; no error path exists. -/
def F64.div : F64 → F64 → F64
  | .nan, _ => .nan
  | .finite _, .nan => .nan
  | .finite a, .finite b =>
    if b = 0 then
      if a = 0 then .nan else if 0 < a then .posInf else .negInf
    else .finite (a / b)
  | .finite _, .posInf => .finite 0
  | .finite _, .negInf => .finite 0
  | .posInf, .nan => .nan
  | .posInf, .finite b => if 0 ≤ b then .posInf else .negInf
  | .negInf, .nan => .nan
  | .negInf, .finite b => if 0 ≤ b then .negInf else .posInf
  | .posInf, .posInf => .nan
  | .posInf, .negInf => .nan
  | .negInf, .posInf => .nan
  | .negInf, .negInf => .nan

/-- IEEE-754 multiplication on the model (used by `seconds_f64`). -/
def F64.mul : F64 → F64 → F64
  | .nan, _ => .nan
  | .finite _, .nan => .nan
  | .finite a, .finite b => .finite (a * b)
  | .finite a, .posInf => if a = 0 then .nan else if 0 < a then .posInf else .negInf
  | .finite a, .negInf => if a = 0 then .nan else if 0 < a then .negInf else .posInf
  | .posInf, .nan => .nan
  | .posInf, .finite b => if b = 0 then .nan else if 0 < b then .posInf else .negInf
  | .negInf, .nan => .nan
  | .negInf, .finite b => if b = 0 then .nan else if 0 < b then .negInf else .posInf
  | .posInf, .posInf => .posInf
  | .posInf, .negInf => .negInf
  | .negInf, .posInf => .negInf
  | .negInf, .negInf => .posInf

/-- Truncation of a rational toward zero (the exact value of a float-to-int
cast before saturation). -/
def rat_trunc (q : ℚ) : Int := q.num.tdiv q.den

/-- Rust saturating `as i64` cast from `f64`. -/
def f64_as_i64 : F64 → Int
  | .finite q => max i64_min (min i64_max (rat_trunc q))
  | .posInf => i64_max
  | .negInf => i64_min
  | .nan => 0

/-- Rust saturating `as i32` cast from `f64`. -/
def f64_as_i32 : F64 → Int
  | .finite q => max i32_min (min i32_max (rat_trunc q))
  | .posInf => i32_max
  | .negInf => i32_min
  | .nan => 0

/-- Rust `% 1.0` on `f64`: the fractional part with the dividend's sign;
`±∞ % 1.0` is `NaN`. -/
def f64_rem_one : F64 → F64
  | .finite q => .finite (q - rat_trunc q)
  | .posInf => .nan
  | .negInf => .nan
  | .nan => .nan

/-- `Duration::as_seconds_f64` (`seconds as f64 + nanoseconds as f64 / 1e9`;
exact rationals stand in for the rounded float). -/
def Duration.as_seconds_f64 (d : Duration) : F64 :=
  .finite ((d.seconds : ℚ) + (d.nanoseconds : ℚ) / 1000000000)

/-- `Duration::seconds_f64` (the constructor from an `f64` second count). -/
def Duration.seconds_f64 (x : F64) : Duration :=
  ⟨f64_as_i64 x, f64_as_i32 ((f64_rem_one x).mul (.finite 1000000000))⟩

/-- `Div<Duration> for Duration`: a dimensionless `f64` ratio. -/
def Duration.div_duration (a b : Duration) : F64 :=
  F64.div a.as_seconds_f64 b.as_seconds_f64

/-- `Div<f64> for Duration`: divide the fractional-second value, then
rebuild a `Duration`. -/
def Duration.div_f64 (a : Duration) (r : F64) : Duration :=
  Duration.seconds_f64 (F64.div a.as_seconds_f64 r)

/-! ### Claim C10 -/

theorem F64.div_finite_zero (a : ℚ) :
    F64.div (.finite a) (.finite 0) = .nan ∨
    F64.div (.finite a) (.finite 0) = .posInf ∨
    F64.div (.finite a) (.finite 0) = .negInf := by
  simp only [F64.div, if_pos rfl]
  split_ifs <;> simp

/-- Claim C10 (confirmed): dividing a `Duration` by an integer zero is an
abort (`none` models the `i128` division-by-zero panic), whereas the
floating divisions have no error path: dividing by the zero `Duration`
(whose `f64` value is exactly `0.0`) or by the float `0.0` produces an
IEEE-754 infinity or `NaN` quotient. -/
theorem div_zero_behaviour (d : Duration) :
    d.div_int 0 = none ∧
    Duration.zero.as_seconds_f64 = .finite 0 ∧
    (d.div_duration Duration.zero = .nan ∨
      d.div_duration Duration.zero = .posInf ∨
      d.div_duration Duration.zero = .negInf) ∧
    (F64.div d.as_seconds_f64 (.finite 0) = .nan ∨
      F64.div d.as_seconds_f64 (.finite 0) = .posInf ∨
      F64.div d.as_seconds_f64 (.finite 0) = .negInf) := by
  have hz : Duration.zero.as_seconds_f64 = .finite 0 := by
    simp [Duration.as_seconds_f64, Duration.zero, Duration.ofSeconds]
  refine ⟨?_, hz, ?_, ?_⟩
  · unfold Duration.div_int
    rw [if_pos (Or.inl rfl)]
  · unfold Duration.div_duration
    rw [hz]
    exact F64.div_finite_zero _
  · exact F64.div_finite_zero _

/-! ### The offset codec (src/format/offset.rs) -/

/-- Modelled from the spec: the external `UtcOffset` type
(src/utc_offset.rs is not among the sources under verification) wraps a
signed count of minutes from UTC. -/
structure UtcOffset where
  minutes : Int
deriving DecidableEq

theorem UtcOffset.minutes_mk (m : Int) : (UtcOffset.mk m).minutes = m := rfl

/-- Modelled from the spec: the fallible external constructor
`UtcOffset::minutes`, rejecting out-of-range offsets; the conventional
bound of ±1439 minutes (spec §9) is used. -/
def UtcOffset.of_minutes (m : Int) : Option UtcOffset :=
  if -1439 ≤ m ∧ m ≤ 1439 then some ⟨m⟩ else none

/-- Modelled from the spec: `UtcOffset::as_duration` exposes the offset as
a `Duration` of `minutes * 60` whole seconds. -/
def UtcOffset.as_duration (o : UtcOffset) : Duration :=
  Duration.ofSeconds (o.minutes * 60)

/-- `error::Parse`: only `InvalidOffset` is relevant here; the remaining
variants of the external error enum are collapsed into `other`. -/
inductive ParseError where
  | invalidOffset
  | other
deriving DecidableEq

/-- The external `ParsedItems` accumulator, restricted to its `offset`
field — the only one the offset codec touches. -/
structure ParsedItems where
  offset : Option UtcOffset
deriving DecidableEq

/-- Modelled from the spec: `try_consume_first_match` over the sign table
`[("+", 1), ("-", -1)]` — consume one matching character and return the
mapped value; on mismatch leave the cursor unchanged and return nothing. -/
def try_consume_sign (s : List Char) : Option (Int × List Char) :=
  match s with
  | c :: rest =>
    if c = '+' then some (1, rest)
    else if c = '-' then some (-1, rest)
    else none
  | [] => none

/-- Modelled from the spec: `try_consume_exact_digits(s, 2, Padding::Zero)`
— consume exactly two ASCII decimal digits and return their decoded value;
on mismatch leave the cursor unchanged and return nothing.  (`48` is the
code point of `'0'`.) -/
def try_consume_two_digits (s : List Char) : Option (Int × List Char) :=
  match s with
  | c1 :: c2 :: rest =>
    if c1.isDigit && c2.isDigit then
      some (((10 * (c1.toNat - 48) + (c2.toNat - 48) : Nat) : Int), rest)
    else none
  | _ => none

/-- `parse_z`: one sign character, two hour digits, two minute digits, then
the fallible external offset constructor.  The two `&mut` parameters of the
source are threaded explicitly: the result is the returned
`ParseResult<()>` together with the final accumulator and cursor. -/
def parse_z (items : ParsedItems) (s : List Char) :
    Except ParseError Unit × ParsedItems × List Char :=
  match try_consume_sign s with
  | none => (.error .invalidOffset, items, s)
  | some (sign, s1) =>
    match try_consume_two_digits s1 with
    | none => (.error .invalidOffset, items, s1)
    | some (hours, s2) =>
      match try_consume_two_digits s2 with
      | none => (.error .invalidOffset, items, s2)
      | some (minutes, s3) =>
        match UtcOffset.of_minutes (sign * (hours * 60 + minutes)) with
        | none => (.error .invalidOffset, items, s3)
        | some o => (.ok (), { items with offset := some o }, s3)

/-- The `write!` specifier `"{:02}"` on a non-negative count: decimal
digits, zero-padded on the left to width two. -/
def fmt02 (n : Nat) : List Char :=
  if n < 100 then [Nat.digitChar (n / 10), Nat.digitChar (n % 10)]
  else Nat.toDigits 10 n

/-- `fmt_z`: sign character, two-digit absolute whole-hour count, two-digit
absolute residual minute count.  (The `i64::abs` calls cannot overflow
here — offsets are tiny — so plain `natAbs` embeds them.) -/
def fmt_z (o : UtcOffset) : List Char :=
  (if o.as_duration.is_negative then '-' else '+') ::
    (fmt02 o.as_duration.whole_hours.natAbs ++
      fmt02 (o.as_duration.whole_minutes - 60 * o.as_duration.whole_hours).natAbs)

/-- The 5-character wire token `SIGN HH MM`, named by its sign flag and the
four decimal digit values. -/
def offset_token (neg : Bool) (d1 d2 d3 d4 : Nat) : List Char :=
  (if neg then '-' else '+') ::
    [Nat.digitChar d1, Nat.digitChar d2, Nat.digitChar d3, Nat.digitChar d4]

/-! ### Codec evaluation lemmas -/

theorem digitChar_isDigit (d : Nat) (h : d < 10) :
    (Nat.digitChar d).isDigit = true := by
  interval_cases d <;> decide

theorem digitChar_toNat (d : Nat) (h : d < 10) :
    (Nat.digitChar d).toNat - 48 = d := by
  interval_cases d <;> decide

theorem of_minutes_some (m : Int) (o : UtcOffset)
    (h : UtcOffset.of_minutes m = some o) : o = ⟨m⟩ := by
  unfold UtcOffset.of_minutes at h
  split_ifs at h
  simp only [Option.some.injEq] at h
  exact h.symm

theorem try_consume_sign_token (neg : Bool) (cs : List Char) :
    try_consume_sign ((if neg then '-' else '+') :: cs) =
      some (if neg then -1 else 1, cs) := by
  cases neg <;> simp [try_consume_sign]

theorem try_consume_two_digits_token (da db : Nat) (ha : da < 10)
    (hb : db < 10) (cs : List Char) :
    try_consume_two_digits (Nat.digitChar da :: Nat.digitChar db :: cs) =
      some (((10 * da + db : Nat) : Int), cs) := by
  simp [try_consume_two_digits, digitChar_isDigit da ha, digitChar_isDigit db hb,
    digitChar_toNat da ha, digitChar_toNat db hb]

/-- Evaluation of `parse_z` on a grammar-shaped token: all three
consumptions succeed and the outcome is decided by the external offset
constructor. -/
theorem parse_z_token (items : ParsedItems) (neg : Bool)
    (d1 d2 d3 d4 : Nat) (rest : List Char)
    (h1 : d1 < 10) (h2 : d2 < 10) (h3 : d3 < 10) (h4 : d4 < 10) :
    parse_z items (offset_token neg d1 d2 d3 d4 ++ rest) =
      match UtcOffset.of_minutes ((if neg then -1 else 1) *
          (((10 * d1 + d2 : Nat) : Int) * 60 + ((10 * d3 + d4 : Nat) : Int))) with
      | some o => (.ok (), { items with offset := some o }, rest)
      | none => (.error .invalidOffset, items, rest) := by
  simp only [offset_token, List.cons_append, List.nil_append, parse_z,
    try_consume_sign_token, try_consume_two_digits_token d1 d2 h1 h2,
    try_consume_two_digits_token d3 d4 h3 h4]
  rcases UtcOffset.of_minutes ((if neg then -1 else 1) *
      (((10 * d1 + d2 : Nat) : Int) * 60 + ((10 * d3 + d4 : Nat) : Int)))
    with _ | o <;> rfl

/-- Evaluation of `fmt_z` on a non-negative offset `h` hours `mm` minutes. -/
theorem fmt_z_eval_pos (h mm : Nat) (hh : h < 100) (hmm : mm < 60) :
    fmt_z ⟨(h : Int) * 60 + (mm : Int)⟩ =
      offset_token false (h / 10) (h % 10) (mm / 10) (mm % 10) := by
  obtain ⟨heq, hlt, hgt, hpos, hneg⟩ :=
    tdivmod_facts (((h : Int) * 60 + (mm : Int)) * 60) 3600 (by norm_num)
  obtain ⟨hr0, hq0⟩ := hpos (by omega)
  have hq : (((h : Int) * 60 + (mm : Int)) * 60).tdiv 3600 = (h : Int) := by omega
  have hwm : (((h : Int) * 60 + (mm : Int)) * 60).tdiv 60 =
      (h : Int) * 60 + (mm : Int) :=
    Int.mul_tdiv_cancel _ (by norm_num)
  unfold fmt_z UtcOffset.as_duration Duration.ofSeconds
  simp only [UtcOffset.minutes_mk, Duration.whole_hours, Duration.whole_minutes,
    Duration.seconds_mk, hq, hwm]
  rw [if_neg (by
    simp only [Duration.is_negative, Duration.seconds_mk, Duration.nanoseconds_mk,
      Bool.or_eq_true, decide_eq_true_eq]
    omega)]
  have hsub : (h : Int) * 60 + (mm : Int) - 60 * (h : Int) = (mm : Int) := by ring
  rw [hsub]
  simp only [Int.natAbs_ofNat, fmt02, if_pos hh, if_pos (by omega : mm < 100)]
  simp [offset_token]

/-- Evaluation of `fmt_z` on a negative offset `h` hours `mm` minutes. -/
theorem fmt_z_eval_neg (h mm : Nat) (hh : h < 100) (hmm : mm < 60)
    (hnz : 0 < h + mm) :
    fmt_z ⟨-((h : Int) * 60 + (mm : Int))⟩ =
      offset_token true (h / 10) (h % 10) (mm / 10) (mm % 10) := by
  obtain ⟨heq, hlt, hgt, hpos, hneg⟩ :=
    tdivmod_facts ((-((h : Int) * 60 + (mm : Int))) * 60) 3600 (by norm_num)
  obtain ⟨hr0, hq0⟩ := hneg (by omega)
  have hq : ((-((h : Int) * 60 + (mm : Int))) * 60).tdiv 3600 = -(h : Int) := by
    omega
  have hwm : ((-((h : Int) * 60 + (mm : Int))) * 60).tdiv 60 =
      -((h : Int) * 60 + (mm : Int)) :=
    Int.mul_tdiv_cancel _ (by norm_num)
  unfold fmt_z UtcOffset.as_duration Duration.ofSeconds
  simp only [UtcOffset.minutes_mk, Duration.whole_hours, Duration.whole_minutes,
    Duration.seconds_mk, hq, hwm]
  rw [if_pos (by
    simp only [Duration.is_negative, Duration.seconds_mk, Duration.nanoseconds_mk,
      Bool.or_eq_true, decide_eq_true_eq]
    omega)]
  have hsub : -((h : Int) * 60 + (mm : Int)) - 60 * -(h : Int) = -(mm : Int) := by
    ring
  rw [hsub]
  simp only [Int.natAbs_neg, Int.natAbs_ofNat, fmt02, if_pos hh,
    if_pos (by omega : mm < 100)]
  simp [offset_token]

/-! ### Claim C7 -/

/-- Claim C7 (corrected), counterexample: the grammar-valid 5-character
token `-0000` (sign, two digit hours, two digit minutes, decoded offset `0`
accepted by the constructor) parses successfully but formats back as
`+0000`, so `format(parse(x)) = x` fails. -/
theorem roundtrip_fails_on_negative_zero :
    parse_z ⟨none⟩ ['-', '0', '0', '0', '0'] = (.ok (), ⟨some ⟨0⟩⟩, []) ∧
    fmt_z ⟨0⟩ = ['+', '0', '0', '0', '0'] ∧
    (['+', '0', '0', '0', '0'] : List Char) ≠ ['-', '0', '0', '0', '0'] := by
  decide

/-- Claim C7 (amended): `format(parse(x)) = x` for every valid 5-character
token `SIGN HH MM` whose minute field is below `60` and which is not a
negative-signed zero offset (`-0000`-like tokens re-format with a `+`, and
a minute field of `60` or more re-formats folded, so both are excluded);
`parse` rejects any input missing the sign, any token with a non-digit
hour or minute character, and any token whose decoded offset the external
constructor rejects. -/
theorem parse_format_roundtrip :
    (∀ (items : ParsedItems) (neg : Bool) (d1 d2 d3 d4 : Nat),
      d1 < 10 → d2 < 10 → d3 < 10 → d4 < 10 →
      10 * d3 + d4 < 60 →
      (UtcOffset.of_minutes ((if neg then -1 else 1) *
        (((10 * d1 + d2 : Nat) : Int) * 60 +
          ((10 * d3 + d4 : Nat) : Int)))).isSome = true →
      (neg = true → 0 < 10 * d1 + d2 + (10 * d3 + d4)) →
      parse_z items (offset_token neg d1 d2 d3 d4) =
        (.ok (), ⟨some ⟨(if neg then -1 else 1) *
          (((10 * d1 + d2 : Nat) : Int) * 60 +
            ((10 * d3 + d4 : Nat) : Int))⟩⟩, []) ∧
      fmt_z ⟨(if neg then -1 else 1) *
          (((10 * d1 + d2 : Nat) : Int) * 60 + ((10 * d3 + d4 : Nat) : Int))⟩ =
        offset_token neg d1 d2 d3 d4) ∧
    (∀ items : ParsedItems,
      parse_z items [] = (.error .invalidOffset, items, [])) ∧
    (∀ (items : ParsedItems) (c : Char) (rest : List Char),
      c ≠ '+' → c ≠ '-' →
      parse_z items (c :: rest) = (.error .invalidOffset, items, c :: rest)) ∧
    (∀ (items : ParsedItems) (neg : Bool) (c1 c2 c3 c4 : Char)
        (rest : List Char),
      (c1.isDigit = false ∨ c2.isDigit = false ∨
        c3.isDigit = false ∨ c4.isDigit = false) →
      (parse_z items
          ((if neg then '-' else '+') :: c1 :: c2 :: c3 :: c4 :: rest)).fst =
        .error .invalidOffset) ∧
    (∀ (items : ParsedItems) (neg : Bool) (d1 d2 d3 d4 : Nat),
      d1 < 10 → d2 < 10 → d3 < 10 → d4 < 10 →
      UtcOffset.of_minutes ((if neg then -1 else 1) *
        (((10 * d1 + d2 : Nat) : Int) * 60 + ((10 * d3 + d4 : Nat) : Int))) =
        none →
      (parse_z items (offset_token neg d1 d2 d3 d4)).fst =
        .error .invalidOffset) := by
  refine ⟨?_, fun items => rfl, ?_, ?_, ?_⟩
  · intro items neg d1 d2 d3 d4 h1 h2 h3 h4 hmm hsome hnz
    obtain ⟨o, ho⟩ := Option.isSome_iff_exists.mp hsome
    have hov := of_minutes_some _ _ ho
    subst hov
    constructor
    · have hp := parse_z_token items neg d1 d2 d3 d4 [] h1 h2 h3 h4
      rw [List.append_nil] at hp
      rw [hp, ho]
    · cases neg
      · have hf := fmt_z_eval_pos (10 * d1 + d2) (10 * d3 + d4) (by omega) hmm
        have e1 : (10 * d1 + d2) / 10 = d1 := by omega
        have e2 : (10 * d1 + d2) % 10 = d2 := by omega
        have e3 : (10 * d3 + d4) / 10 = d3 := by omega
        have e4 : (10 * d3 + d4) % 10 = d4 := by omega
        rw [e1, e2, e3, e4] at hf
        simpa using hf
      · have hf := fmt_z_eval_neg (10 * d1 + d2) (10 * d3 + d4) (by omega) hmm
          (hnz rfl)
        have e1 : (10 * d1 + d2) / 10 = d1 := by omega
        have e2 : (10 * d1 + d2) % 10 = d2 := by omega
        have e3 : (10 * d3 + d4) / 10 = d3 := by omega
        have e4 : (10 * d3 + d4) % 10 = d4 := by omega
        rw [e1, e2, e3, e4] at hf
        simpa using hf
  · intro items c rest hplus hminus
    have hfail : try_consume_sign (c :: rest) = none := by
      simp only [try_consume_sign, if_neg hplus, if_neg hminus]
    simp only [parse_z, hfail]
  · intro items neg c1 c2 c3 c4 rest hbad
    simp only [parse_z, try_consume_sign_token]
    rcases hc12 : (c1.isDigit && c2.isDigit) with _ | _
    · have hfail : try_consume_two_digits (c1 :: c2 :: c3 :: c4 :: rest) = none := by
        simp only [try_consume_two_digits]
        rw [if_neg (by simp_all)]
      simp only [hfail]
    · have hd1 : c1.isDigit = true := ((Bool.and_eq_true _ _).mp hc12).1
      have hd2 : c2.isDigit = true := ((Bool.and_eq_true _ _).mp hc12).2
      have hok1 : try_consume_two_digits (c1 :: c2 :: c3 :: c4 :: rest) =
          some (((10 * (c1.toNat - 48) + (c2.toNat - 48) : Nat) : Int),
            c3 :: c4 :: rest) := by
        simp only [try_consume_two_digits]
        rw [if_pos (by simp [hd1, hd2])]
      have hfail2 : try_consume_two_digits (c3 :: c4 :: rest) = none := by
        simp only [try_consume_two_digits]
        rcases hbad with hb | hb | hb | hb
        · exact absurd hd1 (by simp [hb])
        · exact absurd hd2 (by simp [hb])
        · rw [if_neg (by simp [hb])]
        · rw [if_neg (by simp [hb])]
      simp only [hok1, hfail2]
  · intro items neg d1 d2 d3 d4 h1 h2 h3 h4 hnone
    rw [(List.append_nil (offset_token neg d1 d2 d3 d4)).symm,
      parse_z_token items neg d1 d2 d3 d4 [] h1 h2 h3 h4, hnone]

/-- Witness for `parse_format_roundtrip` at the token `+0530`. -/
theorem parse_format_roundtrip_witness :
    parse_z ⟨none⟩ (offset_token false 0 5 3 0) =
      (.ok (), ⟨some ⟨(if false then -1 else 1) *
        (((10 * 0 + 5 : Nat) : Int) * 60 + ((10 * 3 + 0 : Nat) : Int))⟩⟩, []) ∧
    fmt_z ⟨(if false then -1 else 1) *
        (((10 * 0 + 5 : Nat) : Int) * 60 + ((10 * 3 + 0 : Nat) : Int))⟩ =
      offset_token false 0 5 3 0 :=
  parse_format_roundtrip.1 ⟨none⟩ false 0 5 3 0 (by decide) (by decide)
    (by decide) (by decide) (by decide) (by decide) (by simp)

/-! ### Claim C8 -/

/-- Claim C8 (confirmed): the parse consumes sign, hour digits and minute
digits in order; every failure — missing sign, non-digit field, or a
decoded minute count the external constructor rejects — surfaces as
`InvalidOffset` and leaves the accumulator untouched; on success the
accumulator's offset becomes `sign × (hours×60 + minutes)` signed minutes,
and in particular `+0530` yields 330. -/
theorem parse_z_contract :
    (∀ (items : ParsedItems) (s : List Char) (e : ParseError),
      (parse_z items s).fst = .error e →
      e = .invalidOffset ∧ (parse_z items s).snd.fst = items) ∧
    (∀ (items : ParsedItems) (neg : Bool) (d1 d2 d3 d4 : Nat)
        (rest : List Char) (o : UtcOffset),
      d1 < 10 → d2 < 10 → d3 < 10 → d4 < 10 →
      UtcOffset.of_minutes ((if neg then -1 else 1) *
        (((10 * d1 + d2 : Nat) : Int) * 60 + ((10 * d3 + d4 : Nat) : Int))) =
        some o →
      parse_z items (offset_token neg d1 d2 d3 d4 ++ rest) =
        (.ok (), ⟨some ⟨(if neg then -1 else 1) *
          (((10 * d1 + d2 : Nat) : Int) * 60 +
            ((10 * d3 + d4 : Nat) : Int))⟩⟩, rest)) ∧
    parse_z ⟨none⟩ ['+', '0', '5', '3', '0'] = (.ok (), ⟨some ⟨330⟩⟩, []) := by
  refine ⟨?_, ?_, by decide⟩
  · intro items s e
    rcases hsig : try_consume_sign s with _ | ⟨sign, s1⟩
    · simp only [parse_z, hsig]
      intro h
      injection h with h'
      exact ⟨h'.symm, trivial⟩
    · rcases h2d : try_consume_two_digits s1 with _ | ⟨hrs, s2⟩
      · simp only [parse_z, hsig, h2d]
        intro h
        injection h with h'
        exact ⟨h'.symm, trivial⟩
      · rcases h2e : try_consume_two_digits s2 with _ | ⟨mins, s3⟩
        · simp only [parse_z, hsig, h2d, h2e]
          intro h
          injection h with h'
          exact ⟨h'.symm, trivial⟩
        · rcases hom : UtcOffset.of_minutes (sign * (hrs * 60 + mins))
            with _ | o
          · simp only [parse_z, hsig, h2d, h2e, hom]
            intro h
            injection h with h'
            exact ⟨h'.symm, trivial⟩
          · simp only [parse_z, hsig, h2d, h2e, hom]
            intro h
            exact absurd h (by simp)
  · intro items neg d1 d2 d3 d4 rest o h1 h2 h3 h4 ho
    have hov := of_minutes_some _ _ ho
    subst hov
    rw [parse_z_token items neg d1 d2 d3 d4 rest h1 h2 h3 h4, ho]

/-- Witness for `parse_z_contract`: a failing parse (`x…`) reports
`InvalidOffset` with the accumulator untouched, and `+0530` sets 330. -/
theorem parse_z_contract_witness :
    (ParseError.invalidOffset = .invalidOffset ∧
      (parse_z ⟨none⟩ ['x']).snd.fst = ⟨none⟩) ∧
    parse_z ⟨none⟩ (offset_token false 0 5 3 0 ++ []) =
      (.ok (), ⟨some ⟨(if false then -1 else 1) *
        (((10 * 0 + 5 : Nat) : Int) * 60 + ((10 * 3 + 0 : Nat) : Int))⟩⟩, []) :=
  ⟨parse_z_contract.1 ⟨none⟩ ['x'] .invalidOffset (by decide),
   parse_z_contract.2.1 ⟨none⟩ false 0 5 3 0 [] ⟨330⟩ (by decide) (by decide)
     (by decide) (by decide) (by decide)⟩

end TimeCrate
